import Mathlib

/-!
Verification of the Istio operator's resource pruning engine and
version-gated hook dispatcher, as a shallow embedding of the Go source
(`operator/pkg/helmreconciler` prune code and `operator/pkg/hooks`).
Cluster access, the object cache and proxy queries are modelled as
explicit state and environment functions; every loop is embedded as a
structurally recursive Lean function mirroring the Go control flow.
-/

deriving instance DecidableEq for Except

namespace IstioOperator

/-- Is the first character list a prefix of the second? -/
def listIsPrefixOfB : List Char → List Char → Bool
  | [], _ => true
  | _ :: _, [] => false
  | a :: as, b :: bs => a = b && listIsPrefixOfB as bs

/-- Does the second character list contain the first as a contiguous sublist? -/
def listContainsSub (pat : List Char) : List Char → Bool
  | [] => listIsPrefixOfB pat []
  | c :: cs => listIsPrefixOfB pat (c :: cs) || listContainsSub pat cs

/-- Embeds Go's `strings.Contains(s, pat)`. -/
def containsSubstr (s pat : String) : Bool := listContainsSub pat.data s.data

/-- Split a character list on a separator character; like Go's
`strings.Split`, adjacent separators yield empty segments. -/
def splitOnChar (sep : Char) : List Char → List (List Char)
  | [] => [[]]
  | c :: cs =>
      let r := splitOnChar sep cs
      if c = sep then [] :: r
      else match r with
        | [] => [[c]]
        | g :: gs => (c :: g) :: gs

/-- Accumulate decimal digits into a number; any non-digit fails. -/
def parseNatAux : List Char → Nat → Option Nat
  | [], acc => some acc
  | c :: cs, acc => if c.isDigit then parseNatAux cs (acc * 10 + (c.toNat - 48)) else none

/-- Parse a non-empty all-digit character list as a number. -/
def parseNatChars (l : List Char) : Option Nat :=
  match l with
  | [] => none
  | _ => parseNatAux l 0

/-- A Kubernetes group/version/kind triple (`schema.GroupVersionKind`). -/
structure GVK where
  group : String
  version : String
  kind : String
deriving DecidableEq, Repr

/-- NamespacedResources orders non cluster scope resource types which should be
deleted, first to last (from the `helmreconciler` package var of the same name).
The kind-name string constants come from `operator/pkg/name`. -/
def NamespacedResources : List GVK :=
  [⟨"autoscaling", "v2beta1", "HorizontalPodAutoscaler"⟩,
   ⟨"policy", "v1beta1", "PodDisruptionBudget"⟩,
   ⟨"apps", "v1", "Deployment"⟩,
   ⟨"apps", "v1", "DaemonSet"⟩,
   ⟨"", "v1", "Service"⟩,
   ⟨"", "v1", "ConfigMap"⟩,
   ⟨"", "v1", "PersistentVolumeClaim"⟩,
   ⟨"", "v1", "Pod"⟩,
   ⟨"", "v1", "Secret"⟩,
   ⟨"", "v1", "ServiceAccount"⟩,
   ⟨"rbac.authorization.k8s.io", "v1", "RoleBinding"⟩,
   ⟨"rbac.authorization.k8s.io", "v1", "Role"⟩,
   ⟨"networking.istio.io", "v1alpha3", "DestinationRule"⟩,
   ⟨"networking.istio.io", "v1alpha3", "EnvoyFilter"⟩,
   ⟨"networking.istio.io", "v1alpha3", "Gateway"⟩,
   ⟨"networking.istio.io", "v1alpha3", "VirtualService"⟩,
   ⟨"security.istio.io", "v1beta1", "PeerAuthentication"⟩]

/-- ClusterResources are resource types the operator prunes, ordered by which
types should be deleted, first to last.  The CRD entry is commented out in the
source ("Cannot currently prune CRDs because this will also wipe out user
config."), so it is absent here as well. -/
def ClusterResources : List GVK :=
  [⟨"admissionregistration.k8s.io", "v1beta1", "MutatingWebhookConfiguration"⟩,
   ⟨"admissionregistration.k8s.io", "v1beta1", "ValidatingWebhookConfiguration"⟩,
   ⟨"rbac.authorization.k8s.io", "v1", "ClusterRole"⟩,
   ⟨"rbac.authorization.k8s.io", "v1", "ClusterRoleBinding"⟩]

/-- NonNamespacedCPResources lists cluster scope shared resource types which
should be deleted during uninstall. -/
def NonNamespacedCPResources : List GVK :=
  [⟨"admissionregistration.k8s.io", "v1beta1", "MutatingWebhookConfiguration"⟩]

/-- The CustomResourceDefinition kind. -/
def crdGVK : GVK := ⟨"apiextensions.k8s.io", "v1beta1", "CustomResourceDefinition"⟩

/-- AllClusterResources appends the CRD kind to NonNamespacedCPResources. -/
def AllClusterResources : List GVK := NonNamespacedCPResources ++ [crdGVK]

/-- A live cluster object as returned by a list query: group/version/kind,
namespace, name and its label set (`unstructured.Unstructured` restricted to
the fields the prune code reads). -/
structure K8sObject where
  group : String
  version : String
  kind : String
  ns : String
  name : String
  objLabels : List (String × String)
deriving DecidableEq, Repr

/-- Modelled from the spec: `object.K8sObject.Hash` (its source is outside the
provided files) is a pure function of group, kind, namespace and name,
injective over that tuple. -/
def objectHash (o : K8sObject) : String :=
  o.group ++ ":" ++ o.kind ++ ":" ++ o.ns ++ ":" ++ o.name

/-- Look up a label key in a label set. -/
def lookupLabel (ls : List (String × String)) (k : String) : Option String :=
  (ls.find? (fun p => p.1 = k)).map (fun p => p.2)

/-- Modelled from the spec: `klabels.Set(sel).AsSelectorPreValidated().Matches`
has exact-subset match semantics — every key in `sel` must be present with the
matching value in the object's labels; extra keys on the object are ignored. -/
def selectorMatches (sel : List (String × String)) (objLabels : List (String × String)) : Bool :=
  sel.all (fun p => lookupLabel objLabels p.1 = some p.2)

/-- Does the label set carry the given key at all (an `Exists` requirement)? -/
def hasLabelKey (k : String) (objLabels : List (String × String)) : Bool :=
  (lookupLabel objLabels k).isSome

/-- The per-component discriminator label key (`IstioComponentLabelStr`). -/
def IstioComponentLabelStr : String := "operator.istio.io/component"

/-- The revision label key (`label.IstioRev`). -/
def IstioRevLabel : String := "istio.io/rev"

/-- The default namespace constant (`istioDefaultNamespace`). -/
def istioDefaultNamespace : String := "istio-system"

/-- Modelled from the spec: `addComponentLabels` (source outside the provided
files) adds the per-component discriminator to the core ownership labels, or
returns the core labels unchanged when the component name is empty. -/
def addComponentLabels (coreLabels : List (String × String)) (componentName : String) :
    List (String × String) :=
  if componentName = "" then coreLabels
  else coreLabels ++ [(IstioComponentLabelStr, componentName)]

/-- Embeds Go's `strings.Contains(s, "not found")`. -/
def containsNotFound (s : String) : Bool :=
  containsSubstr s "not found"

/-- The process-wide Object Cache (`operator/pkg/cache`): owner CR hash to the
set of object hashes it owns. -/
def ObjectCache := List (String × List String)

instance : DecidableEq ObjectCache := by
  unfold ObjectCache
  infer_instance

/-- Embeds `cache.RemoveObject(crHash, objHash)`: drop `objHash` from the set
under `crHash`; removing an absent entry is a no-op. -/
def cacheRemoveObject (c : ObjectCache) (crHash objHash : String) : ObjectCache :=
  c.map (fun p => if p.1 = crHash then (p.1, p.2.filter (fun h => h ≠ objHash)) else p)

/-- The observable state threaded through a reconciliation pass: the Object
Cache, plus traces of the effects the Go code performs against the cluster —
delete calls issued, dry-run "Not pruning object" reports, per-object cache
removals, and the kinds listed by `runForAllTypes`. -/
structure PruneState where
  cache : ObjectCache
  deleteCalls : List K8sObject
  wouldDelete : List String
  cacheRemovals : List (String × String)
  listedKinds : List GVK
deriving DecidableEq

/-- The empty starting state with a given cache. -/
def initState (c : ObjectCache) : PruneState :=
  ⟨c, [], [], [], []⟩

/-- The environment of a `HelmReconciler`: its options and the external
collaborators (cluster client, CR hash lookup, proxy query) as functions. -/
structure HelmReconciler where
  dryRun : Bool
  crHash : String → Except String String
  deleteErr : K8sObject → Option String
  clusterObjects : GVK → Except String (List K8sObject)
  coreOwnerLabels : Except String (List (String × String))
  proxyIDs : String → String → Except String (List String)

/-- Embeds `removeFromObjectCache`: look up the CR hash for the component (on
error the Go code logs and proceeds with the zero-value string) and remove the
object hash from the cache under it. -/
def removeFromObjectCache (h : HelmReconciler) (componentName objHash : String)
    (c : ObjectCache) : ObjectCache :=
  let crHash := match h.crHash componentName with
    | .ok s => s
    | .error _ => ""
  cacheRemoveObject c crHash objHash

/-- One iteration of the loop body of `deleteResources`, for one live object. -/
def deleteStep (h : HelmReconciler) (excluded : String → Bool)
    (labels : List (String × String)) (componentName : String) (all : Bool)
    (acc : List String × PruneState) (o : K8sObject) : List String × PruneState :=
  let errs := acc.1
  let st := acc.2
  let oh := objectHash o
  if !all && !(selectorMatches labels o.objLabels) then
    (errs, st)
  else if !all && excluded oh then
    (errs, st)
  else if h.dryRun then
    (errs, { st with wouldDelete := st.wouldDelete ++ [oh] })
  else
    let st1 := { st with deleteCalls := st.deleteCalls ++ [o] }
    let errs1 := match h.deleteErr o with
      | none => errs
      | some msg => if containsNotFound msg then errs else errs ++ [msg]
    let st2 := if !all then
        { st1 with
          cache := removeFromObjectCache h componentName oh st1.cache,
          cacheRemovals := st1.cacheRemovals ++ [(componentName, oh)] }
      else st1
    (errs1, st2)

/-- The `for _, o := range objects.Items` loop of `deleteResources`. -/
def deleteLoop (h : HelmReconciler) (excluded : String → Bool)
    (labels : List (String × String)) (componentName : String) (all : Bool) :
    List K8sObject → List String × PruneState → List String × PruneState
  | [], acc => acc
  | o :: rest, acc =>
      deleteLoop h excluded labels componentName all rest
        (deleteStep h excluded labels componentName all acc o)

/-- Embeds `deleteResources`: delete any resources from the given component
that are not in the excluded map; if `all` is set, flush the whole Object
Cache afterwards.  Returns the accumulated error list (`errs.ToError()` is nil
exactly when this list is empty) and the updated state. -/
def deleteResources (h : HelmReconciler) (excluded : String → Bool)
    (coreLabels : List (String × String)) (componentName : String)
    (objects : List K8sObject) (all : Bool) (st : PruneState) :
    List String × PruneState :=
  let labels := addComponentLabels coreLabels componentName
  let r := deleteLoop h excluded labels componentName all objects ([], st)
  if all then (r.1, { r.2 with cache := [] }) else r

/-- An object survives the selective filters of `deleteResources` (and in
full-purge mode every object does): this is the candidate-selection predicate
shared by the dry-run and the real pass. -/
def isCandidate (excluded : String → Bool) (labels : List (String × String))
    (all : Bool) (o : K8sObject) : Bool :=
  all || (selectorMatches labels o.objLabels && !excluded (objectHash o))

/-- The error `deleteResources` accumulates for one delete call: none on
success and on a "not found" failure, the message otherwise. -/
def deleteErrOf (h : HelmReconciler) (o : K8sObject) : Option String :=
  match h.deleteErr o with
  | none => none
  | some msg => if containsNotFound msg then none else some msg

theorem deleteStep_skip (h : HelmReconciler) (ex : String → Bool)
    (labels : List (String × String)) (c : String) (all : Bool)
    (errs : List String) (st : PruneState) (o : K8sObject)
    (hc : isCandidate ex labels all o = false) :
    deleteStep h ex labels c all (errs, st) o = (errs, st) := by
  have hall : all = false := by
    rcases Bool.or_eq_false_iff.mp hc with ⟨h1, _⟩
    exact h1
  have hrest : (selectorMatches labels o.objLabels && !ex (objectHash o)) = false := by
    rcases Bool.or_eq_false_iff.mp hc with ⟨_, h2⟩
    exact h2
  by_cases hm : selectorMatches labels o.objLabels = true
  · have hex : ex (objectHash o) = true := by
      rcases Bool.and_eq_false_iff.mp hrest with h3 | h3
      · exact absurd hm (by simp [h3])
      · simpa using h3
    simp [deleteStep, hall, hm, hex]
  · have hm' : selectorMatches labels o.objLabels = false := by
      simpa using hm
    simp [deleteStep, hall, hm']

theorem deleteStep_dry (h : HelmReconciler) (ex : String → Bool)
    (labels : List (String × String)) (c : String) (all : Bool)
    (errs : List String) (st : PruneState) (o : K8sObject)
    (hc : isCandidate ex labels all o = true) (hd : h.dryRun = true) :
    deleteStep h ex labels c all (errs, st) o =
      (errs, { st with wouldDelete := st.wouldDelete ++ [objectHash o] }) := by
  rcases Bool.or_eq_true_iff.mp hc with hall | hsel
  · simp [deleteStep, hall, hd]
  · have hm : selectorMatches labels o.objLabels = true := (Bool.and_eq_true_iff.mp hsel).1
    have hex : ex (objectHash o) = false := by
      have := (Bool.and_eq_true_iff.mp hsel).2
      simpa using this
    by_cases hall : all = true
    · simp [deleteStep, hall, hd]
    · have hall' : all = false := by simpa using hall
      simp [deleteStep, hall', hm, hex, hd]

theorem deleteStep_wet (h : HelmReconciler) (ex : String → Bool)
    (labels : List (String × String)) (c : String) (all : Bool)
    (errs : List String) (st : PruneState) (o : K8sObject)
    (hc : isCandidate ex labels all o = true) (hd : h.dryRun = false) :
    deleteStep h ex labels c all (errs, st) o =
      (errs ++ (deleteErrOf h o).toList,
       { st with
         deleteCalls := st.deleteCalls ++ [o],
         cacheRemovals := st.cacheRemovals ++ (if all then [] else [(c, objectHash o)]),
         cache := if all then st.cache
           else removeFromObjectCache h c (objectHash o) st.cache }) := by
  have herr : (match h.deleteErr o with
      | none => errs
      | some msg => if containsNotFound msg then errs else errs ++ [msg]) =
      errs ++ (deleteErrOf h o).toList := by
    unfold deleteErrOf
    cases hmsg : h.deleteErr o with
    | none => simp
    | some msg =>
      by_cases hn : containsNotFound msg = true
      · simp [hn]
      · simp [hn]
  rcases Bool.or_eq_true_iff.mp hc with hall | hsel
  · simp [deleteStep, hall, hd, herr]
  · have hm : selectorMatches labels o.objLabels = true := (Bool.and_eq_true_iff.mp hsel).1
    have hex : ex (objectHash o) = false := by
      have := (Bool.and_eq_true_iff.mp hsel).2
      simpa using this
    by_cases hall : all = true
    · simp [deleteStep, hall, hd, herr]
    · have hall' : all = false := by simpa using hall
      simp [deleteStep, hall', hm, hex, hd, herr]

theorem toList_append_filterMap {α β : Type} (f : α → Option β) (a : α) (l : List α) :
    (f a).toList ++ l.filterMap f = (a :: l).filterMap f := by
  cases hfa : f a <;> simp [List.filterMap_cons, hfa]

theorem deleteLoop_spec (h : HelmReconciler) (ex : String → Bool)
    (labels : List (String × String)) (c : String) (all : Bool)
    (os : List K8sObject) :
    ∀ errs st, deleteLoop h ex labels c all os (errs, st) =
      (errs ++ (if h.dryRun then []
          else (os.filter (isCandidate ex labels all)).filterMap (deleteErrOf h)),
       { st with
         deleteCalls := st.deleteCalls ++
           (if h.dryRun then [] else os.filter (isCandidate ex labels all)),
         wouldDelete := st.wouldDelete ++
           (if h.dryRun then (os.filter (isCandidate ex labels all)).map objectHash else []),
         cacheRemovals := st.cacheRemovals ++
           (if h.dryRun || all then []
            else (os.filter (isCandidate ex labels all)).map (fun x => (c, objectHash x))),
         cache := if h.dryRun || all then st.cache
           else ((os.filter (isCandidate ex labels all)).map objectHash).foldl
             (fun cc oh => removeFromObjectCache h c oh cc) st.cache }) := by
  induction os with
  | nil => intro errs st; simp [deleteLoop]
  | cons o rest ih =>
    intro errs st
    by_cases hc : isCandidate ex labels all o = true
    · by_cases hd : h.dryRun = true
      · rw [deleteLoop, deleteStep_dry h ex labels c all errs st o hc hd, ih]
        simp [hc, hd, List.filter_cons]
      · have hd' : h.dryRun = false := by simpa using hd
        rw [deleteLoop, deleteStep_wet h ex labels c all errs st o hc hd', ih]
        by_cases hall : all = true
        · subst hall
          simp [hc, hd', List.filter_cons, toList_append_filterMap]
        · have hall' : all = false := by simpa using hall
          subst hall'
          simp [hc, hd', List.filter_cons, List.append_assoc, toList_append_filterMap]
    · have hc' : isCandidate ex labels all o = false := by simpa using hc
      rw [deleteLoop, deleteStep_skip h ex labels c all errs st o hc', ih]
      simp [hc', List.filter_cons]

/-- Embeds `h.client.List` with `MatchingLabelsSelector` where the selector is
the label set plus an `Exists` requirement on the component label key: returns
the cluster's objects of the kind that match. -/
def listWithSelector (h : HelmReconciler) (gvk : GVK)
    (labels : List (String × String)) : Except String (List K8sObject) :=
  match h.clusterObjects gvk with
  | .error e => .error e
  | .ok objs => .ok (objs.filter (fun o =>
      selectorMatches labels o.objLabels && hasLabelKey IstioComponentLabelStr o.objLabels))

/-- The `for _, gvk := range append(NamespacedResources, ClusterResources...)`
loop of `runForAllTypes`: list the kind (a listing failure is logged and
skipped) and invoke the callback, accumulating its errors. -/
def runForAllTypesLoop (h : HelmReconciler)
    (callback : List (String × String) → List K8sObject → PruneState → List String × PruneState)
    (labels : List (String × String)) :
    List GVK → List String × PruneState → List String × PruneState
  | [], acc => acc
  | gvk :: rest, acc =>
      let st1 := { acc.2 with listedKinds := acc.2.listedKinds ++ [gvk] }
      match listWithSelector h gvk labels with
      | .error _ => runForAllTypesLoop h callback labels rest (acc.1, st1)
      | .ok objects =>
          let r := callback labels objects st1
          runForAllTypesLoop h callback labels rest (acc.1 ++ r.1, r.2)

/-- Embeds `runForAllTypes`: fetch the core owner labels (fatal on error), then
scan `NamespacedResources ++ ClusterResources`, calling the callback for each
kind with the labels and the listed objects. -/
def runForAllTypes (h : HelmReconciler)
    (callback : List (String × String) → List K8sObject → PruneState → List String × PruneState)
    (st : PruneState) : List String × PruneState :=
  match h.coreOwnerLabels with
  | .error e => ([e], st)
  | .ok labels =>
      runForAllTypesLoop h callback labels (NamespacedResources ++ ClusterResources) ([], st)

/-- The `for cname, manifest := range manifests.Consolidated()` loop of the
selective branch of `Prune`: one `deleteResources` call per component, with the
component's manifest object hashes as the exclusion set.  The consolidated
manifest map is modelled as a list of (component name, object hashes) pairs
(`object.AllObjectHashes` of the rendered manifest, whose source is outside
the provided files). -/
def pruneSelectiveLoop (h : HelmReconciler) (labels : List (String × String))
    (objects : List K8sObject) :
    List (String × List String) → List String × PruneState → List String × PruneState
  | [], acc => acc
  | (cname, hashes) :: rest, acc =>
      let r := deleteResources h (fun s => hashes.contains s) labels cname objects false acc.2
      pruneSelectiveLoop h labels objects rest (acc.1 ++ r.1, r.2)

/-- Embeds `Prune`: remove any resources not specified in the manifests.  In
full-purge mode (`all`) a single unfiltered `deleteResources` call per kind;
otherwise one selective call per consolidated manifest component. -/
def Prune (h : HelmReconciler) (manifests : List (String × List String)) (all : Bool)
    (st : PruneState) : List String × PruneState :=
  runForAllTypes h (fun labels objects st1 =>
    if all then deleteResources h (fun _ => false) labels "" objects true st1
    else pruneSelectiveLoop h labels objects manifests ([], st1)) st

/-- The `for _, gvk := range gvkList` loop of `GetPrunedResourcesByRevision`:
listing failures are logged and skipped; each listed object contributes its
hash to the resources list. -/
def getPrunedLoop (h : HelmReconciler) (labels : List (String × String)) :
    List GVK → List (List K8sObject) × List String → List (List K8sObject) × List String
  | [], acc => acc
  | gvk :: rest, acc =>
      match listWithSelector h gvk labels with
      | .error _ => getPrunedLoop h labels rest acc
      | .ok objects =>
          getPrunedLoop h labels rest (acc.1 ++ [objects], acc.2 ++ objects.map objectHash)

/-- Embeds `GetPrunedResourcesByRevision`: the list of resources to be removed
when pruning by revision.  The selector is the revision label plus the
component-exists requirement; the kind list is `AllClusterResources` for purge
and `NamespacedResources ++ NonNamespacedCPResources` otherwise. -/
def GetPrunedResourcesByRevision (h : HelmReconciler) (revision : String)
    (purge : Bool) : List (List K8sObject) × List String :=
  let labels := [(IstioRevLabel, revision)]
  let gvkList := if purge then AllClusterResources
    else NamespacedResources ++ NonNamespacedCPResources
  getPrunedLoop h labels gvkList ([], [])

/-- The component name constant `name.PilotComponentName`. -/
def PilotComponentName : String := "Pilot"

/-- The `for _, objects := range objectsList` loop of
`DeleteControlPlaneByRevision`: a non-nil error from `deleteResources` returns
immediately with a wrapped error. -/
def deleteCPLoop (h : HelmReconciler) (labels : List (String × String)) (purge : Bool) :
    List (List K8sObject) → PruneState → Option String × PruneState
  | [], st => (none, st)
  | objects :: rest, st =>
      if purge = false then
        let r := deleteResources h (fun _ => false) labels PilotComponentName objects false st
        if r.1 = [] then deleteCPLoop h labels purge rest r.2
        else (some "failed to prune resources", r.2)
      else
        let r := deleteResources h (fun _ => false) labels "" objects true st
        if r.1 = [] then deleteCPLoop h labels purge rest r.2
        else (some "failed to prune resources", r.2)

/-- Embeds `DeleteControlPlaneByRevision`: remove the resources in the slice of
lists that match the given control plane revision (unfiltered when purging). -/
def DeleteControlPlaneByRevision (h : HelmReconciler) (revision : String)
    (objectsList : List (List K8sObject)) (purge : Bool) (st : PruneState) :
    Option String × PruneState :=
  let labels := if purge then [] else [(IstioRevLabel, revision)]
  deleteCPLoop h labels purge objectsList st

/-- The install status values used by the controller
(`v1alpha1.InstallStatus_ERROR` and `v1alpha1.InstallStatus_HEALTHY`). -/
inductive InstallStatus where
  | ERROR
  | HEALTHY
deriving DecidableEq, Repr

/-- Embeds `PruneControlPlaneByRevisionWithController`: a non-empty proxy-ID
query result is a precondition failure returned before any resource listing or
deletion; otherwise prune the revision's resources. -/
def PruneControlPlaneByRevisionWithController (h : HelmReconciler)
    (ns revision : String) (st : PruneState) :
    (InstallStatus × Option String) × PruneState :=
  let ns1 := if ns = "" then istioDefaultNamespace else ns
  match h.proxyIDs revision ns1 with
  | .error e => ((.ERROR, some ("failed to check proxy infos: " ++ e)), st)
  | .ok pids =>
      if pids.length != 0 then
        ((.ERROR, some ("there are proxies still pointing to the pruned control plane: " ++
          String.intercalate " " pids)), st)
      else
        let uslist := (GetPrunedResourcesByRevision h revision false).1
        match DeleteControlPlaneByRevision h revision uslist false st with
        | (some e, st1) => ((.ERROR, some e), st1)
        | (none, st1) => ((.HEALTHY, none), st1)

/-- Embeds Go's `strings.HasPrefix(s, pre)` via character lists. -/
def strStartsWith (s pre : String) : Bool := listIsPrefixOfB pre.data s.data

/-- Drop the first `n` characters of a string. -/
def strDropChars (s : String) (n : Nat) : String := String.mk (s.data.drop n)

/-- Models the external `hashicorp/go-version` parser `version.NewVersion`,
restricted to dotted numeric version strings: "1.4.0" parses to [1, 4, 0];
anything with a non-numeric or empty segment fails. -/
def newVersion (s : String) : Option (List Nat) :=
  (splitOnChar '.' s.data).mapM parseNatChars

/-- Compare two version segment lists the way `go-version` does: segmentwise
numeric comparison, with the shorter list padded with zeros. -/
def cmpSegs : List Nat → List Nat → Ordering
  | [], bs => if bs.all (fun b => b = 0) then .eq else .lt
  | a :: as, [] => if a = 0 then cmpSegs as [] else .gt
  | a :: as, b :: bs =>
      if a < b then .lt else if b < a then .gt else cmpSegs as bs

/-- A single `go-version` range-constraint operator. -/
inductive ConstraintOp where
  | ge
  | le
  | gt
  | lt
  | eq
  | ne
deriving DecidableEq, Repr

/-- Models `version.NewConstraint` restricted to a single comparison
constraint such as ">=1.3": an operator followed by a dotted numeric
version. -/
def newConstraint (s : String) : Option (ConstraintOp × List Nat) :=
  if strStartsWith s ">=" then (newVersion (strDropChars s 2)).map (fun v => (ConstraintOp.ge, v))
  else if strStartsWith s "<=" then (newVersion (strDropChars s 2)).map (fun v => (ConstraintOp.le, v))
  else if strStartsWith s "!=" then (newVersion (strDropChars s 2)).map (fun v => (ConstraintOp.ne, v))
  else if strStartsWith s ">" then (newVersion (strDropChars s 1)).map (fun v => (ConstraintOp.gt, v))
  else if strStartsWith s "<" then (newVersion (strDropChars s 1)).map (fun v => (ConstraintOp.lt, v))
  else if strStartsWith s "=" then (newVersion (strDropChars s 1)).map (fun v => (ConstraintOp.eq, v))
  else (newVersion s).map (fun v => (ConstraintOp.eq, v))

/-- Does a version satisfy an operator against the constraint's version? -/
def opCheck (op : ConstraintOp) (c : Ordering) : Bool :=
  match op with
  | .ge => c != Ordering.lt
  | .le => c != Ordering.gt
  | .gt => c == Ordering.gt
  | .lt => c == Ordering.lt
  | .eq => c == Ordering.eq
  | .ne => c != Ordering.eq

/-- Embeds `checkConstraint`: parse the version and the constraint (either
failure is an error) and report whether the version satisfies it. -/
def checkConstraint (verStr constraintStr : String) : Except String Bool :=
  match newVersion verStr with
  | none => .error ("Malformed version: " ++ verStr)
  | some v =>
      match newConstraint constraintStr with
      | none => .error ("Malformed constraint: " ++ constraintStr)
      | some oc => .ok (opCheck oc.1 (cmpSegs v oc.2))

/-- A hook callback, modelled by its display name and the error list it
produces when invoked against the (fixed) cluster and params. -/
structure Hook where
  name : String
  result : List String
deriving DecidableEq, Repr

/-- A mapping between go-version formatted constraints for the source and
target versions and the list of hooks that should be run if the constraints
match (`hookVersionMapping`). -/
structure hookVersionMapping where
  sourceVersionConstraint : String
  targetVersionConstraint : String
  hooks : List Hook
deriving DecidableEq, Repr

/-- Embeds `checkHookListEntry`: a mapping matches when the source version
satisfies the source constraint and the target version satisfies the target
constraint; a malformed constraint is an error. -/
def checkHookListEntry (h : hookVersionMapping) (sourceVer targetVer : String) :
    Except String Bool :=
  match checkConstraint sourceVer h.sourceVersionConstraint with
  | .error e => .error e
  | .ok false => .ok false
  | .ok true =>
      match checkConstraint targetVer h.targetVersionConstraint with
      | .error e => .error e
      | .ok ch => .ok ch

/-- The `for _, hf := range h.hooks` loop of `runUpgradeHooks`: invoke each
hook in order, accumulating its errors and recording its invocation. -/
def runHookList : List Hook → List String × List String → List String × List String
  | [], acc => acc
  | hf :: rest, acc => runHookList rest (acc.1 ++ hf.result, acc.2 ++ [hf.name])

/-- The `for _, h := range hml` loop of `runUpgradeHooks`: a constraint error
is accumulated and the mapping skipped; a non-matching mapping is skipped
silently; under dry-run a matching mapping is logged but its hooks are not
invoked. -/
def runUpgradeHooksLoop (sourceVer targetVer : String) (dryRun : Bool) :
    List hookVersionMapping → List String × List String → List String × List String
  | [], acc => acc
  | m :: rest, acc =>
      match checkHookListEntry m sourceVer targetVer with
      | .error e => runUpgradeHooksLoop sourceVer targetVer dryRun rest (acc.1 ++ [e], acc.2)
      | .ok false => runUpgradeHooksLoop sourceVer targetVer dryRun rest acc
      | .ok true =>
          if dryRun then runUpgradeHooksLoop sourceVer targetVer dryRun rest acc
          else runUpgradeHooksLoop sourceVer targetVer dryRun rest (runHookList m.hooks acc)

/-- Embeds `runUpgradeHooks`: parse the source and target versions (either
failure fails the whole run before any mapping is considered), then dispatch
every mapping in declared order.  Returns the accumulated errors and the trace
of invoked hook names. -/
def runUpgradeHooks (hml : List hookVersionMapping) (sourceVer targetVer : String)
    (dryRun : Bool) : List String × List String :=
  match newVersion sourceVer with
  | none => (["Malformed version: " ++ sourceVer], [])
  | some _ =>
      match newVersion targetVer with
      | none => (["Malformed version: " ++ targetVer], [])
      | some _ => runUpgradeHooksLoop sourceVer targetVer dryRun hml ([], [])

/-- The `preUpgradeHooks` table, parameterised by the two hook callbacks
(`checkInitCrdJobs` and `checkMixerTelemetry` in the source): one mapping with
source and target constraints ">=1.3". -/
def preUpgradeHooksOf (checkInitCrdJobsHook checkMixerTelemetryHook : Hook) :
    List hookVersionMapping :=
  [⟨">=1.3", ">=1.3", [checkInitCrdJobsHook, checkMixerTelemetryHook]⟩]

/-- An unstructured item returned by `GetGroupVersionResource`: its metadata
name and, when its "spec" field is a map, the canonical YAML that
`yaml.Marshal` produces for it (none when the spec is missing or not a map). -/
structure UItem where
  name : String
  spec : Option String
deriving DecidableEq, Repr

/-- The environment of the mixer telemetry drift check: the cluster client
(`GetGroupVersionResource` for the fixed config.istio.io/v1alpha2 group and
istio-system namespace, keyed here by resource and name) and the default
telemetry manifest (`params.DefaultTelemetryManifest`, keyed by name:kind,
valued by `msMap.YAML()`). -/
structure MixerEnv where
  cluster : String → String → Except String (List UItem)
  defaults : String → Option String

/-- The catalogue of legacy mixer telemetry resources (`CRKindNamesMap`),
modelled as an ordered list since the Go map's iteration order is
unspecified.  The entry "requestcount, requestduration" is a single string in
the source, reproduced verbatim. -/
def CRKindNamesMap : List (String × List String) :=
  [("instance", ["requestsize", "requestcount, requestduration", "attributes"]),
   ("rule", ["promhttp", "kubeattrgenrulerule"]),
   ("handler", ["prometheus", "kubernetesenv"])]

/-- Embeds `KindResourceMap` lookup; an unknown kind yields the Go map's zero
value. -/
def KindResourceMap (kind : String) : String :=
  if kind = "instance" then "instances"
  else if kind = "rule" then "rules"
  else if kind = "handler" then "handlers"
  else ""

/-- Modelled from the spec: `util.YAMLDiff` (source outside the provided
files) returns the empty string exactly when the two canonicalized YAML
strings are byte-for-byte identical, and a non-empty diff description
otherwise. -/
def YAMLDiff (a b : String) : String :=
  if a = b then "" else "- " ++ a ++ " + " ++ b

/-- The blocking error message produced when a live telemetry spec differs
from its catalogued default. -/
def mixerDriftMsg (kind nm s d : String) : String :=
  "customized config exists for kind: " ++ kind ++ ", name: " ++ nm ++
    ", diff is: " ++ YAMLDiff s d ++ ". please check existing mixer config first before upgrade"

/-- The error message produced when a live item's spec is not a map. -/
def mixerSpecErrMsg (kind nm : String) : String :=
  "failed to get spec from unstructured item of kind: " ++ kind ++ ", name: " ++ nm

/-- The nested `for kind, names := range CRKindNamesMap` loops of
`checkMixerTelemetry` (part_002 variant), flattened over (kind, name) pairs:
fetch each catalogued resource; an absent resource is logged and skipped; a
resource without a catalogued default is skipped; a resource whose canonical
live spec differs from the default returns exactly one blocking error. -/
def checkMixerTelemetryLoop (env : MixerEnv) : List (String × String) → List String
  | [] => []
  | (kind, nm) :: rest =>
      match env.cluster (KindResourceMap kind) nm with
      | .error e => [e]
      | .ok items =>
          match items with
          | [] => checkMixerTelemetryLoop env rest
          | item :: _ =>
              match env.defaults (nm ++ ":" ++ kind) with
              | none => checkMixerTelemetryLoop env rest
              | some ms =>
                  match item.spec with
                  | none => [mixerSpecErrMsg kind nm]
                  | some specYAML =>
                      if YAMLDiff specYAML ms != "" then [mixerDriftMsg kind nm specYAML ms]
                      else checkMixerTelemetryLoop env rest

/-- The catalogued (kind, name) pairs, in the order the model iterates them. -/
def catalogPairs : List (String × String) :=
  CRKindNamesMap.foldl (fun acc kn => acc ++ kn.2.map (fun n => (kn.1, n))) []

/-- Embeds `checkMixerTelemetry` (part_002): compare default mixer telemetry
configs with the corresponding in-cluster configs. -/
def checkMixerTelemetry (env : MixerEnv) : List String :=
  checkMixerTelemetryLoop env catalogPairs

/-- The catalogued resource is absent from the cluster: the fetch succeeded
with an empty item list. -/
def resourceAbsent (env : MixerEnv) (p : String × String) : Bool :=
  match env.cluster (KindResourceMap p.1) p.2 with
  | .ok [] => true
  | _ => false

/-- The catalogued resource is present and its canonical live spec YAML is
byte-for-byte identical to its catalogued default spec YAML. -/
def resourceMatchesDefault (env : MixerEnv) (p : String × String) : Bool :=
  match env.cluster (KindResourceMap p.1) p.2, env.defaults (p.2 ++ ":" ++ p.1) with
  | .ok (item :: _), some d => item.spec = some d
  | _, _ => false

/-- A live Deployment carrying the Pilot component label, for concrete runs. -/
def exObjDeploy : K8sObject :=
  ⟨"apps", "v1", "Deployment", "istio-system", "istiod", [(IstioComponentLabelStr, "Pilot")]⟩

/-- A live Service carrying the Pilot component label, for concrete runs. -/
def exObjSvc : K8sObject :=
  ⟨"", "v1", "Service", "istio-system", "svc", [(IstioComponentLabelStr, "Pilot")]⟩

/-- A live unlabelled Secret, for concrete runs. -/
def exObjSecret : K8sObject := ⟨"", "v1", "Secret", "istio-system", "s1", []⟩

/-- A concrete reconciler whose delete calls all succeed. -/
def exRecOk : HelmReconciler :=
  ⟨false, fun _ => .ok "cr", fun _ => none, fun _ => .ok [], .ok [], fun _ _ => .ok []⟩

/-- A concrete reconciler whose delete calls all fail with "boom". -/
def exRecBoom : HelmReconciler :=
  ⟨false, fun _ => .ok "cr", fun _ => some "boom", fun _ => .ok [], .ok [],
   fun _ _ => .ok []⟩

/-- A concrete reconciler whose delete calls all fail with a "not found"
error. -/
def exRecNF : HelmReconciler :=
  ⟨false, fun _ => .ok "cr", fun _ => some "secrets s1 not found", fun _ => .ok [],
   .ok [], fun _ _ => .ok []⟩

/-- A concrete reconciler in dry-run mode. -/
def exRecDry : HelmReconciler :=
  ⟨true, fun _ => .ok "cr", fun _ => none, fun _ => .ok [], .ok [], fun _ _ => .ok []⟩

/-- A concrete reconciler whose proxy query reports one active proxy. -/
def exRecProxy : HelmReconciler :=
  ⟨false, fun _ => .ok "cr", fun _ => none, fun _ => .ok [], .ok [],
   fun _ _ => .ok ["pod1.istio-system"]⟩

theorem deleteResources_spec (h : HelmReconciler) (ex : String → Bool)
    (coreLabels : List (String × String)) (c : String)
    (objects : List K8sObject) (all : Bool) (st : PruneState) :
    deleteResources h ex coreLabels c objects all st =
      ((if h.dryRun then []
          else (objects.filter (isCandidate ex (addComponentLabels coreLabels c) all)).filterMap
            (deleteErrOf h)),
       { st with
         deleteCalls := st.deleteCalls ++
           (if h.dryRun then []
            else objects.filter (isCandidate ex (addComponentLabels coreLabels c) all)),
         wouldDelete := st.wouldDelete ++
           (if h.dryRun then
              (objects.filter (isCandidate ex (addComponentLabels coreLabels c) all)).map objectHash
            else []),
         cacheRemovals := st.cacheRemovals ++
           (if h.dryRun || all then []
            else (objects.filter (isCandidate ex (addComponentLabels coreLabels c) all)).map
              (fun x => (c, objectHash x))),
         cache := if all then []
           else if h.dryRun then st.cache
           else ((objects.filter (isCandidate ex (addComponentLabels coreLabels c) all)).map
               objectHash).foldl
             (fun cc oh => removeFromObjectCache h c oh cc) st.cache }) := by
  unfold deleteResources
  simp only [deleteLoop_spec]
  by_cases hall : all = true
  · subst hall
    simp
  · have hall' : all = false := by simpa using hall
    subst hall'
    by_cases hd : h.dryRun = true
    · simp [hd]
    · have hd' : h.dryRun = false := by simpa using hd
      simp [hd']

/-- C4: for every non-empty exclusion set and every live object whose hash is
in it, a selective-mode (`all = false`) prune pass never issues a delete call
for that object, regardless of its labels. -/
theorem selective_prune_respects_exclusion (h : HelmReconciler) (ex : String → Bool)
    (coreLabels : List (String × String)) (componentName : String)
    (objects : List K8sObject) (st : PruneState) (o : K8sObject)
    (hE : ∃ s, ex s = true)
    (ho : ex (objectHash o) = true)
    (hst : o ∉ st.deleteCalls) :
    o ∉ (deleteResources h ex coreLabels componentName objects false st).2.deleteCalls := by
  rw [deleteResources_spec]
  intro hmem
  simp only [List.mem_append] at hmem
  rcases hmem with hmem | hmem
  · exact hst hmem
  · by_cases hd : h.dryRun = true
    · simp [hd] at hmem
    · have hd' : h.dryRun = false := by simpa using hd
      rw [hd'] at hmem
      simp only [if_neg Bool.false_ne_true, List.mem_filter] at hmem
      have hc := hmem.2
      simp [isCandidate, ho] at hc

/-- Witness for C4 at a concrete input. -/
theorem selective_prune_respects_exclusion_witness :
    exObjSvc ∉ (deleteResources exRecOk (fun s => s = objectHash exObjSvc) [] "Pilot"
      [exObjSvc] false (initState [])).2.deleteCalls :=
  selective_prune_respects_exclusion exRecOk (fun s => s = objectHash exObjSvc) [] "Pilot"
    [exObjSvc] (initState []) exObjSvc ⟨objectHash exObjSvc, by decide⟩ (by decide)
    (by decide)

/-- C5: a non-dry-run full-purge pass issues a delete call for every listed
live object — for any exclusion set and any labels, so neither filter is
applied — and leaves the Object Cache empty, for any prior cache contents. -/
theorem full_purge_deletes_all_and_flushes (h : HelmReconciler) (ex : String → Bool)
    (coreLabels : List (String × String)) (componentName : String)
    (objects : List K8sObject) (st : PruneState)
    (hd : h.dryRun = false) :
    (∀ o ∈ objects,
      o ∈ (deleteResources h ex coreLabels componentName objects true st).2.deleteCalls) ∧
    (deleteResources h ex coreLabels componentName objects true st).2.cache = [] := by
  rw [deleteResources_spec]
  refine ⟨fun o ho => ?_, by simp⟩
  simp only [hd, if_neg Bool.false_ne_true, List.mem_append]
  right
  rw [List.mem_filter]
  exact ⟨ho, by simp [isCandidate]⟩

/-- Witness for C5 at a concrete input. -/
theorem full_purge_deletes_all_and_flushes_witness :
    (∀ x ∈ [exObjDeploy], x ∈ (deleteResources exRecOk (fun _ => true) [("a", "b")] ""
      [exObjDeploy] true (initState [("cr", ["h1", "h2"])])).2.deleteCalls) ∧
    (deleteResources exRecOk (fun _ => true) [("a", "b")] "" [exObjDeploy] true
      (initState [("cr", ["h1", "h2"])])).2.cache = [] :=
  full_purge_deletes_all_and_flushes exRecOk (fun _ => true) [("a", "b")] "" [exObjDeploy]
    (initState [("cr", ["h1", "h2"])]) (by decide)

/-- C6: in a non-dry-run pass the returned error list is exactly the
per-object delete failures of all candidate objects that are not "not found"
failures (a "not found" failure contributes no entry), and a delete call is
still issued for every candidate object, so processing continues past
failures. -/
theorem prune_error_accumulation (h : HelmReconciler) (ex : String → Bool)
    (coreLabels : List (String × String)) (componentName : String)
    (objects : List K8sObject) (all : Bool) (st : PruneState)
    (hd : h.dryRun = false) :
    ((deleteResources h ex coreLabels componentName objects all st).1 =
      (objects.filter (isCandidate ex (addComponentLabels coreLabels componentName) all)).filterMap
        (deleteErrOf h)) ∧
    ((deleteResources h ex coreLabels componentName objects all st).2.deleteCalls =
      st.deleteCalls ++
        objects.filter (isCandidate ex (addComponentLabels coreLabels componentName) all)) ∧
    (∀ o m, h.deleteErr o = some m → containsNotFound m = true → deleteErrOf h o = none) ∧
    (∀ o m, h.deleteErr o = some m → containsNotFound m = false → deleteErrOf h o = some m) := by
  rw [deleteResources_spec]
  refine ⟨by simp [hd], by simp [hd], fun o m hm hnf => ?_, fun o m hm hnf => ?_⟩
  · simp [deleteErrOf, hm, hnf]
  · simp [deleteErrOf, hm, hnf]

/-- Witness for C6 at a concrete input. -/
theorem prune_error_accumulation_witness :
    ((deleteResources exRecNF (fun _ => false) [] "" [exObjSecret] true (initState [])).1 =
      ([exObjSecret].filter
        (isCandidate (fun _ => false) (addComponentLabels [] "") true)).filterMap
        (deleteErrOf exRecNF)) ∧
    ((deleteResources exRecNF (fun _ => false) [] "" [exObjSecret] true
        (initState [])).2.deleteCalls =
      (initState []).deleteCalls ++
        [exObjSecret].filter (isCandidate (fun _ => false) (addComponentLabels [] "") true)) ∧
    (∀ x m, exRecNF.deleteErr x = some m → containsNotFound m = true →
      deleteErrOf exRecNF x = none) ∧
    (∀ x m, exRecNF.deleteErr x = some m → containsNotFound m = false →
      deleteErrOf exRecNF x = some m) :=
  prune_error_accumulation exRecNF (fun _ => false) [] "" [exObjSecret] true (initState [])
    (by decide)

/-- C7: a dry-run pass issues zero delete calls, and its "would delete" report
is exactly the hashes of the objects the corresponding non-dry-run pass
deletes, from the same exclusion set, labels and live objects — the two share
the candidate-selection logic. -/
theorem dry_run_reports_wet_candidates (h : HelmReconciler) (ex : String → Bool)
    (coreLabels : List (String × String)) (componentName : String)
    (objects : List K8sObject) (all : Bool) (st : PruneState)
    (h1 : st.deleteCalls = []) (h2 : st.wouldDelete = []) :
    ((deleteResources { h with dryRun := true } ex coreLabels componentName objects all
        st).2.deleteCalls = []) ∧
    ((deleteResources { h with dryRun := true } ex coreLabels componentName objects all
        st).2.wouldDelete =
      ((deleteResources { h with dryRun := false } ex coreLabels componentName objects all
          st).2.deleteCalls).map objectHash) := by
  rw [deleteResources_spec, deleteResources_spec]
  simp [h1, h2]

/-- Witness for C7 at a concrete input. -/
theorem dry_run_reports_wet_candidates_witness :
    ((deleteResources { exRecOk with dryRun := true } (fun _ => false) [] "Pilot"
        [exObjSvc] false (initState [])).2.deleteCalls = []) ∧
    ((deleteResources { exRecOk with dryRun := true } (fun _ => false) [] "Pilot"
        [exObjSvc] false (initState [])).2.wouldDelete =
      ((deleteResources { exRecOk with dryRun := false } (fun _ => false) [] "Pilot"
          [exObjSvc] false (initState [])).2.deleteCalls).map objectHash) :=
  dry_run_reports_wet_candidates exRecOk (fun _ => false) [] "Pilot" [exObjSvc] false
    (initState []) (by decide) (by decide)

/-- C10: a dry-run full-purge call issues no delete call and performs no
per-object cache removal, yet still flushes the entire Object Cache at the
end, emptying it while mutating nothing in the cluster. -/
theorem dry_run_full_purge_still_flushes (h : HelmReconciler) (ex : String → Bool)
    (coreLabels : List (String × String)) (componentName : String)
    (objects : List K8sObject) (st : PruneState)
    (hd : h.dryRun = true) :
    ((deleteResources h ex coreLabels componentName objects true st).2.deleteCalls =
      st.deleteCalls) ∧
    ((deleteResources h ex coreLabels componentName objects true st).2.cacheRemovals =
      st.cacheRemovals) ∧
    (deleteResources h ex coreLabels componentName objects true st).2.cache = [] := by
  rw [deleteResources_spec]
  simp [hd]

/-- Witness for C10 at a concrete input. -/
theorem dry_run_full_purge_still_flushes_witness :
    ((deleteResources exRecDry (fun _ => false) [] "" [exObjSecret] true
        (initState [("cr", ["x"])])).2.deleteCalls =
      (initState [("cr", ["x"])]).deleteCalls) ∧
    ((deleteResources exRecDry (fun _ => false) [] "" [exObjSecret] true
        (initState [("cr", ["x"])])).2.cacheRemovals =
      (initState [("cr", ["x"])]).cacheRemovals) ∧
    (deleteResources exRecDry (fun _ => false) [] "" [exObjSecret] true
      (initState [("cr", ["x"])])).2.cache = [] :=
  dry_run_full_purge_still_flushes exRecDry (fun _ => false) [] "" [exObjSecret]
    (initState [("cr", ["x"])]) (by decide)

/-- C1 counterexample: with one live object matching the component selector
and a delete call that fails with an error other than "not found" ("boom"),
the selective non-dry-run pass both returns the error and removes the
object's hash from the Object Cache — the cache entry is not left in place. -/
theorem cache_removal_on_failure_counterexample :
    ((deleteResources exRecBoom (fun _ => false) [] "Pilot" [exObjDeploy] false
        (initState [("cr", [objectHash exObjDeploy])])).1 = ["boom"]) ∧
    ((deleteResources exRecBoom (fun _ => false) [] "Pilot" [exObjDeploy] false
        (initState [("cr", [objectHash exObjDeploy])])).2.cache = [("cr", [])]) ∧
    ((deleteResources exRecBoom (fun _ => false) [] "Pilot" [exObjDeploy] false
        (initState [("cr", [objectHash exObjDeploy])])).2.cacheRemovals =
      [("Pilot", objectHash exObjDeploy)]) :=
  ⟨by decide, by decide, by decide⟩

/-- C1 (amended): during selective non-dry-run pruning, the object's hash is
removed from the Object Cache under the component for every object that
passes the selector and exclusion filters — regardless of whether its delete
call succeeded, failed with "not found", or failed with any other error. -/
theorem cache_removal_unconditional (h : HelmReconciler) (ex : String → Bool)
    (coreLabels : List (String × String)) (componentName : String)
    (objects : List K8sObject) (st : PruneState) (o : K8sObject)
    (hd : h.dryRun = false) (ho : o ∈ objects)
    (hm : selectorMatches (addComponentLabels coreLabels componentName) o.objLabels = true)
    (hx : ex (objectHash o) = false) :
    (componentName, objectHash o) ∈
      (deleteResources h ex coreLabels componentName objects false st).2.cacheRemovals := by
  rw [deleteResources_spec]
  simp only [hd, Bool.false_or, if_neg Bool.false_ne_true, List.mem_append]
  right
  rw [List.mem_map]
  refine ⟨o, ?_, rfl⟩
  rw [List.mem_filter]
  exact ⟨ho, by simp [isCandidate, hm, hx]⟩

/-- Witness for the amended C1 at a concrete input whose delete call fails
with a non-"not found" error. -/
theorem cache_removal_unconditional_witness :
    ("Pilot", objectHash exObjDeploy) ∈
      (deleteResources exRecBoom (fun _ => false) [] "Pilot" [exObjDeploy] false
        (initState [("cr", [objectHash exObjDeploy])])).2.cacheRemovals :=
  cache_removal_unconditional exRecBoom (fun _ => false) [] "Pilot" [exObjDeploy]
    (initState [("cr", [objectHash exObjDeploy])]) exObjDeploy (by decide) (by decide)
    (by decide) (by decide)

theorem deleteResources_listedKinds (h : HelmReconciler) (ex : String → Bool)
    (coreLabels : List (String × String)) (c : String)
    (objects : List K8sObject) (all : Bool) (st : PruneState) :
    (deleteResources h ex coreLabels c objects all st).2.listedKinds = st.listedKinds := by
  rw [deleteResources_spec]

theorem pruneSelectiveLoop_listedKinds (h : HelmReconciler)
    (labels : List (String × String)) (objects : List K8sObject) :
    ∀ (ms : List (String × List String)) (acc : List String × PruneState),
      (pruneSelectiveLoop h labels objects ms acc).2.listedKinds = acc.2.listedKinds := by
  intro ms
  induction ms with
  | nil => intro acc; rfl
  | cons m rest ih =>
      intro acc
      obtain ⟨cname, hashes⟩ := m
      simp only [pruneSelectiveLoop]
      rw [ih, deleteResources_listedKinds]

theorem runForAllTypesLoop_listedKinds (h : HelmReconciler)
    (cb : List (String × String) → List K8sObject → PruneState → List String × PruneState)
    (labels : List (String × String))
    (hcb : ∀ ls os s, (cb ls os s).2.listedKinds = s.listedKinds) :
    ∀ (gvks : List GVK) (errs : List String) (st : PruneState),
      (runForAllTypesLoop h cb labels gvks (errs, st)).2.listedKinds =
        st.listedKinds ++ gvks := by
  intro gvks
  induction gvks with
  | nil => intro errs st; simp [runForAllTypesLoop]
  | cons g rest ih =>
      intro errs st
      simp only [runForAllTypesLoop]
      cases hl : listWithSelector h g labels with
      | error e => rw [ih]; simp
      | ok objects => rw [ih, hcb]; simp

/-- C2 (amended): a full-purge `Prune` call scans exactly the same kind list
as a selective `Prune` call — `runForAllTypes` always iterates the
namespace-scoped kinds followed by the cluster-scoped kinds, a list that
contains no CRD kind — rather than a strict cluster-scoped-only subset. -/
theorem prune_scans_same_kinds (h : HelmReconciler)
    (manifests : List (String × List String)) (st : PruneState) :
    ((Prune h manifests true st).2.listedKinds =
      (Prune h manifests false st).2.listedKinds) ∧
    crdGVK ∉ NamespacedResources ++ ClusterResources := by
  refine ⟨?_, by decide⟩
  unfold Prune runForAllTypes
  cases hc : h.coreOwnerLabels with
  | error e => rfl
  | ok labels =>
      dsimp only
      simp only [eq_self_iff_true, if_true, Bool.false_eq_true, if_false]
      rw [runForAllTypesLoop_listedKinds h _ labels
            (fun ls os s => deleteResources_listedKinds h (fun _ => false) ls "" os true s),
          runForAllTypesLoop_listedKinds h _ labels
            (fun ls os s => pruneSelectiveLoop_listedKinds h ls os manifests ([], s))]

/-- Witness for the amended C2 at a concrete reconciler. -/
theorem prune_scans_same_kinds_witness :
    ((Prune exRecDry [] true (initState [])).2.listedKinds =
      (Prune exRecDry [] false (initState [])).2.listedKinds) ∧
    crdGVK ∉ NamespacedResources ++ ClusterResources :=
  prune_scans_same_kinds exRecDry [] (initState [])

/-- C2 counterexample: with a concrete reconciler, full-purge `Prune` lists
exactly the same kinds as selective `Prune`, and that shared list contains
the namespace-scoped HorizontalPodAutoscaler kind — so the full-purge kind
set is neither a strict subset of the selective one nor cluster-scoped-only. -/
theorem prune_kind_list_counterexample :
    ((Prune exRecOk [("Pilot", [])] true (initState [])).2.listedKinds =
      (Prune exRecOk [("Pilot", [])] false (initState [])).2.listedKinds) ∧
    (⟨"autoscaling", "v2beta1", "HorizontalPodAutoscaler"⟩ : GVK) ∈
      (Prune exRecOk [("Pilot", [])] true (initState [])).2.listedKinds :=
  ⟨by decide, by decide⟩

/-- C9: whenever the active-proxy query for a revision returns a non-empty
identifier set, `PruneControlPlaneByRevisionWithController` returns the ERROR
status and leaves the state untouched — no delete call is issued and the
cluster state is unchanged. -/
theorem prune_by_revision_precondition (h : HelmReconciler) (ns revision : String)
    (st : PruneState) (pids : List String)
    (hq : h.proxyIDs revision (if ns = "" then istioDefaultNamespace else ns) = .ok pids)
    (hne : pids ≠ []) :
    ((PruneControlPlaneByRevisionWithController h ns revision st).1.1 =
      InstallStatus.ERROR) ∧
    ((PruneControlPlaneByRevisionWithController h ns revision st).2 = st) := by
  unfold PruneControlPlaneByRevisionWithController
  simp only []
  rw [hq]
  have hlen : (pids.length != 0) = true := by
    cases pids with
    | nil => exact absurd rfl hne
    | cons a as => simp
  simp [hlen]

/-- Witness for C9 at a concrete input with one active proxy. -/
theorem prune_by_revision_precondition_witness :
    ((PruneControlPlaneByRevisionWithController exRecProxy "" "canary" (initState [])).1.1 =
      InstallStatus.ERROR) ∧
    ((PruneControlPlaneByRevisionWithController exRecProxy "" "canary" (initState [])).2 =
      initState []) :=
  prune_by_revision_precondition exRecProxy "" "canary" (initState [])
    ["pod1.istio-system"] (by decide) (by decide)

/-- The concatenated error lists of a hook list, in invocation order. -/
def hookErrs : List Hook → List String
  | [] => []
  | hf :: rest => hf.result ++ hookErrs rest

theorem runHookList_spec : ∀ (hl : List Hook) (errs inv : List String),
    runHookList hl (errs, inv) = (errs ++ hookErrs hl, inv ++ hl.map Hook.name) := by
  intro hl
  induction hl with
  | nil => intro errs inv; simp [runHookList, hookErrs]
  | cons hf rest ih =>
      intro errs inv
      simp only [runHookList, hookErrs]
      rw [ih]
      simp [List.append_assoc]

/-- C8: with parseable source and target versions and a mapping whose
constraint check yields `b`, the dispatcher invokes the mapping's hooks (in
order, accumulating their errors) exactly when `b` is true, and skips the
mapping without adding any error when `b` is false.  In particular the
`preUpgradeHooks` mapping — source and target constraints ">=1.3" — runs its
hooks for (source "1.4.0", target "1.5.0") and is skipped, without error, for
source "1.2.0". -/
theorem hook_dispatch_gated (m : hookVersionMapping) (sv tv : String) (b : Bool)
    (hs : List Hook) (ha hb : Hook)
    (hsv : (newVersion sv).isSome = true) (htv : (newVersion tv).isSome = true)
    (hck : checkHookListEntry m sv tv = Except.ok b) :
    (runUpgradeHooks [m] sv tv false =
      (if b then (hookErrs m.hooks, m.hooks.map Hook.name) else ([], []))) ∧
    checkHookListEntry ⟨">=1.3", ">=1.3", hs⟩ "1.4.0" "1.5.0" = Except.ok true ∧
    checkHookListEntry ⟨">=1.3", ">=1.3", hs⟩ "1.2.0" "1.5.0" = Except.ok false ∧
    (runUpgradeHooks (preUpgradeHooksOf ha hb) "1.4.0" "1.5.0" false =
      (ha.result ++ hb.result, [ha.name, hb.name])) ∧
    (runUpgradeHooks (preUpgradeHooksOf ha hb) "1.2.0" "1.5.0" false = ([], [])) := by
  refine ⟨?_, rfl, rfl, rfl, rfl⟩
  obtain ⟨v, hv⟩ := Option.isSome_iff_exists.mp hsv
  obtain ⟨w, hw⟩ := Option.isSome_iff_exists.mp htv
  unfold runUpgradeHooks
  rw [hv, hw]
  simp only [runUpgradeHooksLoop]
  rw [hck]
  cases b with
  | false => rfl
  | true =>
      simp only [if_neg Bool.false_ne_true]
      show runUpgradeHooksLoop sv tv false [] (runHookList m.hooks ([], [])) = _
      rw [runHookList_spec]
      simp [runUpgradeHooksLoop]

/-- Witness for C8 at a concrete mapping and version pair. -/
theorem hook_dispatch_gated_witness :
    runUpgradeHooks [⟨">=1.3", ">=1.3", [⟨"checkMixerTelemetry", ["drift"]⟩]⟩]
      "1.4.0" "1.5.0" false =
      (hookErrs [⟨"checkMixerTelemetry", ["drift"]⟩],
       [⟨"checkMixerTelemetry", ["drift"]⟩].map Hook.name) := by
  have h := (hook_dispatch_gated ⟨">=1.3", ">=1.3", [⟨"checkMixerTelemetry", ["drift"]⟩]⟩
    "1.4.0" "1.5.0" true [] ⟨"a", []⟩ ⟨"b", []⟩ (by decide) (by decide) (by decide)).1
  simpa using h

theorem YAMLDiff_self (a : String) : YAMLDiff a a = "" := by
  simp [YAMLDiff]

theorem YAMLDiff_ne_empty (s d : String) (hsd : s ≠ d) : YAMLDiff s d ≠ "" := by
  unfold YAMLDiff
  rw [if_neg hsd]
  intro hcontra
  have hlen := congrArg String.length hcontra
  rw [String.length_append, String.length_append] at hlen
  have e1 : ("- " ++ s).length = 2 + s.length := by
    rw [String.length_append]
    have : "- ".length = 2 := rfl
    omega
  have e2 : " + ".length = 3 := rfl
  have e3 : ("" : String).length = 0 := rfl
  omega

theorem mixerLoop_skip (env : MixerEnv) (k n : String) (rest : List (String × String))
    (hp : (resourceAbsent env (k, n) || resourceMatchesDefault env (k, n)) = true) :
    checkMixerTelemetryLoop env ((k, n) :: rest) = checkMixerTelemetryLoop env rest := by
  rcases Bool.or_eq_true_iff.mp hp with habs | hmatch
  · unfold resourceAbsent at habs
    cases hc : env.cluster (KindResourceMap k) n with
    | error e => rw [hc] at habs; simp at habs
    | ok items =>
        cases items with
        | nil => simp only [checkMixerTelemetryLoop, hc]
        | cons it its => rw [hc] at habs; simp at habs
  · unfold resourceMatchesDefault at hmatch
    cases hc : env.cluster (KindResourceMap k) n with
    | error e => rw [hc] at hmatch; simp at hmatch
    | ok items =>
        cases items with
        | nil => rw [hc] at hmatch; simp at hmatch
        | cons item its =>
            cases hdef : env.defaults (n ++ ":" ++ k) with
            | none => rw [hc, hdef] at hmatch; simp at hmatch
            | some d =>
                rw [hc, hdef] at hmatch
                simp only [decide_eq_true_eq] at hmatch
                simp only [checkMixerTelemetryLoop, hc, hdef, hmatch, YAMLDiff_self,
                  bne_self_eq_false, Bool.false_eq_true, if_false]

theorem mixerLoop_clean (env : MixerEnv) :
    ∀ ps : List (String × String),
      (∀ p ∈ ps, (resourceAbsent env p || resourceMatchesDefault env p) = true) →
      checkMixerTelemetryLoop env ps = [] := by
  intro ps
  induction ps with
  | nil => intro _; rfl
  | cons p rest ih =>
      intro hall
      obtain ⟨k, n⟩ := p
      rw [mixerLoop_skip env k n rest (hall (k, n) (List.mem_cons_self _ _))]
      exact ih (fun q hq => hall q (List.mem_cons_of_mem _ hq))

theorem mixerLoop_drift (env : MixerEnv) :
    ∀ (ps1 : List (String × String)) (k n : String) (ps2 : List (String × String))
      (item : UItem) (its : List UItem) (s d : String),
      (∀ q ∈ ps1, (resourceAbsent env q || resourceMatchesDefault env q) = true) →
      env.cluster (KindResourceMap k) n = Except.ok (item :: its) →
      item.spec = some s →
      env.defaults (n ++ ":" ++ k) = some d →
      s ≠ d →
      checkMixerTelemetryLoop env (ps1 ++ (k, n) :: ps2) = [mixerDriftMsg k n s d] := by
  intro ps1
  induction ps1 with
  | nil =>
      intro k n ps2 item its s d _ hc hspec hdef hsd
      have hbne : (YAMLDiff s d != "") = true :=
        bne_iff_ne.mpr (YAMLDiff_ne_empty s d hsd)
      simp only [List.nil_append, checkMixerTelemetryLoop, hc, hspec, hdef, hbne, if_true]
  | cons p rest ih =>
      intro k n ps2 item its s d hclean hc hspec hdef hsd
      obtain ⟨k1, n1⟩ := p
      rw [List.cons_append,
        mixerLoop_skip env k1 n1 _ (hclean (k1, n1) (List.mem_cons_self _ _))]
      exact ih k n ps2 item its s d
        (fun q hq => hclean q (List.mem_cons_of_mem _ hq)) hc hspec hdef hsd

/-- C3: for every catalogued legacy telemetry resource, the drift-detection
hook reports no error for resources that are absent from the cluster or whose
canonical live spec YAML is byte-for-byte identical to the catalogued default
(so a run in which every resource is absent or matching returns no error),
and when a catalogued resource with a default is present with a differing
spec (every earlier catalogued resource being absent or matching), the hook
returns exactly one error entry describing the diff. -/
theorem mixer_telemetry_drift (env : MixerEnv) :
    ((∀ p ∈ catalogPairs, (resourceAbsent env p || resourceMatchesDefault env p) = true) →
      checkMixerTelemetry env = []) ∧
    (∀ (ps1 : List (String × String)) (k n : String) (ps2 : List (String × String))
       (item : UItem) (its : List UItem) (s d : String),
      catalogPairs = ps1 ++ (k, n) :: ps2 →
      (∀ q ∈ ps1, (resourceAbsent env q || resourceMatchesDefault env q) = true) →
      env.cluster (KindResourceMap k) n = Except.ok (item :: its) →
      item.spec = some s →
      env.defaults (n ++ ":" ++ k) = some d →
      s ≠ d →
      checkMixerTelemetry env = [mixerDriftMsg k n s d]) := by
  constructor
  · intro hall
    exact mixerLoop_clean env catalogPairs hall
  · intro ps1 k n ps2 item its s d hcat hclean hc hspec hdef hsd
    unfold checkMixerTelemetry
    rw [hcat]
    exact mixerLoop_drift env ps1 k n ps2 item its s d hclean hc hspec hdef hsd

/-- A cluster environment where every catalogued telemetry resource is
present with a spec identical to its default. -/
def envClean : MixerEnv := ⟨fun _ nm => .ok [⟨nm, some "specY"⟩], fun _ => some "specY"⟩

/-- A cluster environment where every catalogued telemetry resource is
present with a spec that differs from its default. -/
def envDrift : MixerEnv := ⟨fun _ nm => .ok [⟨nm, some "live"⟩], fun _ => some "dflt"⟩

/-- Witness for C3: a cluster where every catalogued resource matches its
default yields no error, and a cluster whose first catalogued resource drifts
from its default yields exactly that one drift error. -/
theorem mixer_telemetry_drift_witness :
    checkMixerTelemetry envClean = [] ∧
    checkMixerTelemetry envDrift = [mixerDriftMsg "instance" "requestsize" "live" "dflt"] := by
  constructor
  · exact (mixer_telemetry_drift envClean).1 (by decide)
  · exact (mixer_telemetry_drift envDrift).2 [] "instance" "requestsize"
      [("instance", "requestcount, requestduration"), ("instance", "attributes"),
       ("rule", "promhttp"), ("rule", "kubeattrgenrulerule"),
       ("handler", "prometheus"), ("handler", "kubernetesenv")]
      ⟨"requestsize", some "live"⟩ [] "live" "dflt" (by decide) (by simp) rfl rfl rfl
      (by decide)

end IstioOperator
